import Mathlib

/-!
Verification of the spindle/laser power-control core of
`Marlin/src/gcode/control/M3-M5.cpp` (`GcodeSuite::M3_M4`, `GcodeSuite::M5`).

The two G-code handlers are translated directly from the source.  The `cutter`
helper methods (`set_enabled`, `set_power`, `apply_power`, the unit/OCR
converters) and the planner-side inline queue bridge are declared in headers
that are not part of this repository snapshot; those are modelled from the
specification and carry a `Modelled from the spec:` doc comment.

Build-time `#if` configuration switches become fields of `Config`; the
results of the G-code parser, `seen('I')` / `seen('S')`, become explicit arguments.
Power values are rationals; hardware (OCR) values are rationals produced by
an integer floor.  Side effects on the planner/hardware are recorded as an
event trace.
-/

/-- Source enum `CUTTER_MODE_STANDARD | CUTTER_MODE_CONTINUOUS | CUTTER_MODE_DYNAMIC`. -/
inductive CutterMode where
  | standard
  | continuous
  | dynamic
  deriving DecidableEq, Repr

/-- Build-time configuration switches and power-range constants of the
cutter feature, as consulted by `M3-M5.cpp`. -/
structure Config where
  /-- `ENABLED(SPINDLE_SERVO)` -/
  spindleServo : Bool
  /-- `ENABLED(SPINDLE_LASER_USE_PWM)` -/
  spindleLaserUsePwm : Bool
  /-- `ENABLED(LASER_POWER_SYNC)` -/
  laserPowerSync : Bool
  /-- `ENABLED(LASER_FEATURE)` -/
  laserFeature : Bool
  /-- `ENABLED(SPINDLE_CHANGE_DIR)` -/
  spindleChangeDir : Bool
  /-- lower bound of the valid unit-power range -/
  minPower : ℚ
  /-- upper bound of the valid unit-power range -/
  maxPower : ℚ
  /-- `cpwr_to_upwr(SPEED_POWER_STARTUP)`: the configured startup power
  constant, already expressed in unit-power terms -/
  startupUnitPower : ℚ
  deriving DecidableEq, Repr

/-- The `cutter` singleton state (`SpindleLaser`) as read and written by
`M3-M5.cpp`: mode, enabled flag, user-facing unit power, hardware (OCR)
power, and the menu mirror. -/
structure CutterState where
  cutter_mode : CutterMode
  enabled : Bool
  unitPower : ℚ
  /-- `cutter.power`: the hardware value last computed/queued -/
  power : ℚ
  menuPower : ℚ
  deriving DecidableEq, Repr

/-- Initial state: `Standard`, disabled, all powers zero. -/
def initState : CutterState :=
  { cutter_mode := CutterMode.standard, enabled := false,
    unitPower := 0, power := 0, menuPower := 0 }

/-- Observable side effects of a command, in program order: the blocking
queue drain, an immediate hardware output write, a direction change, a
per-block inline hand-off (`inline_power` / `setNextBlockPower`), or a
power-sync marker block (`planner.buffer_sync_block(BLOCK_FLAG_LASER_PWR)`
queueing the pending value). -/
inductive Event where
  | synchronize
  | writeOutput (v : ℚ)
  | setDirection (reverse : Bool)
  | inlineHandoff (v : ℚ)
  | syncMarker (v : ℚ)
  deriving DecidableEq, Repr

/-- Modelled from the spec: `cutter.power_to_range` clamps a requested power
to the configured valid range bounds (spec 3: "`unitPower` is clamped to the
configured valid range before any conversion"; spec 4.1: "values are
silently clamped"), in the style of `constrain(value, low, high)`. -/
def power_to_range (cfg : Config) (p : ℚ) : ℚ :=
  if p < cfg.minPower then cfg.minPower
  else if cfg.maxPower < p then cfg.maxPower
  else p

/-- Modelled from the spec: `cutter.upower_to_ocr`, the linear UnitConverter
map from the unit power range onto the duty-cycle range `[0, 255]`
(spec 4.2, `PwmCapable`), taking the integer part; the argument is clamped
to the range bounds first. -/
def upower_to_ocr (cfg : Config) (p : ℚ) : ℚ :=
  ((Rat.floor (255 * ((power_to_range cfg p - cfg.minPower) /
      (cfg.maxPower - cfg.minPower))) : ℤ) : ℚ)

/-- Modelled from the spec: `cutter.set_enabled` records the enabled flag
(spec 4.1 step 2 "set `enabled = true`"; for `M5 I`, "clear `enabled`...
This reset does not itself change the current hardware output"), with no
hardware write of its own. -/
def set_enabled (b : Bool) (c : CutterState) : CutterState :=
  { c with enabled := b }

/-- Modelled from the spec: `cutter.set_power` stores the dispatched
hardware value and writes it to the output immediately (spec 4.1 step 5,
standard-mode path). -/
def set_power (v : ℚ) (c : CutterState) : CutterState × List Event :=
  ({ c with power := v }, [Event.writeOutput v])

/-- The `get_s_power` lambda of `GcodeSuite::M3_M4`, verbatim: if `S` was
seen, clamp it into `unitPower`, set `cutter.power` in the servo
configuration, or — in standard mode — by PWM conversion or the binary
on/off rule, and mirror into `menuPower`; else in standard mode fall back
to the startup power constant.  Returns the updated state and the value
`cutter.unitPower` the lambda returns. -/
def get_s_power (cfg : Config) (sPower : Option ℚ) (c : CutterState) :
    CutterState × ℚ :=
  match sPower with
  | some s =>
    let up := power_to_range cfg s
    let c1 := { c with unitPower := up }
    let c2 :=
      if cfg.spindleServo then { c1 with power := upower_to_ocr cfg up }
      else if c1.cutter_mode = CutterMode.standard then
        { c1 with power :=
          if cfg.spindleLaserUsePwm then upower_to_ocr cfg up
          else if up > 0 then 255 else 0 }
      else c1
    let c3 := { c2 with menuPower := c2.unitPower }
    (c3, c3.unitPower)
  | none =>
    if c.cutter_mode = CutterMode.standard then
      let c1 := { c with unitPower := cfg.startupUnitPower }
      (c1, c1.unitPower)
    else (c, c.unitPower)

/-- Handler `GcodeSuite::M3_M4(is_M4)`, translated line by line.  `seenI` and
`sPower` are the parsed `seen('I')` flag and optional `S` value.  Returns the
final cutter state and the trace of planner/hardware effects. -/
def M3_M4 (cfg : Config) (is_M4 seenI : Bool) (sPower : Option ℚ)
    (c : CutterState) : CutterState × List Event :=
  let tr0 : List Event :=
    if c.cutter_mode = CutterMode.standard then [Event.synchronize] else []
  let c1 :=
    if seenI then
      set_enabled true
        { c with cutter_mode :=
            if is_M4 then CutterMode.dynamic else CutterMode.continuous }
    else c
  if c1.cutter_mode = CutterMode.continuous ∨
      c1.cutter_mode = CutterMode.dynamic then
    if cfg.laserPowerSync then
      let r := get_s_power cfg sPower c1
      let c3 := { r.1 with power := upower_to_ocr cfg r.2 }
      (c3, tr0 ++ [Event.syncMarker c3.power])
    else if cfg.laserFeature then
      let r := get_s_power cfg sPower c1
      let c3 := { r.1 with power := upower_to_ocr cfg r.2 }
      (c3, tr0 ++ [Event.inlineHandoff c3.power])
    else (c1, tr0)
  else
    let dir : List Event :=
      if cfg.spindleChangeDir then [Event.setDirection is_M4] else []
    if cfg.spindleLaserUsePwm then
      let r := get_s_power cfg sPower c1
      let s := set_power (upower_to_ocr cfg r.2) r.1
      (s.1, tr0 ++ s.2 ++ dir)
    else if cfg.spindleServo then
      let r := get_s_power cfg sPower c1
      let s := set_power r.2 r.1
      (s.1, tr0 ++ s.2 ++ dir)
    else
      (set_enabled true c1, tr0 ++ dir)

/-- Modelled from the spec: `cutter.apply_power` dispatches a hardware value
through the mode-dependent path (spec 4.1 step 5): in an inline mode the
value is handed to the InlineQueueBridge (power-sync marker or per-block
hand-off, by configuration) instead of being written directly; in standard
mode it is written to the output immediately. -/
def apply_power (cfg : Config) (v : ℚ) (c : CutterState) :
    CutterState × List Event :=
  if c.cutter_mode = CutterMode.continuous ∨
      c.cutter_mode = CutterMode.dynamic then
    if cfg.laserPowerSync then ({ c with power := v }, [Event.syncMarker v])
    else ({ c with power := v }, [Event.inlineHandoff v])
  else ({ c with power := v }, [Event.writeOutput v])

/-- Handler `GcodeSuite::M5()`, translated line by line: synchronize, clear the
inline flags when `I` was seen, then kill the power through `apply_power`. -/
def M5 (cfg : Config) (seenI : Bool) (c : CutterState) :
    CutterState × List Event :=
  let c1 :=
    if seenI then
      { set_enabled false c with cutter_mode := CutterMode.standard }
    else c
  let r := apply_power cfg 0 c1
  (r.1, Event.synchronize :: r.2)

/-- The configurations and dispatch-time modes in which `M3_M4` evaluates
its `get_s_power` lambda at all (source lines 100-118): in an inline mode
one of the two inline strategies must be configured, in standard mode the
PWM or the servo path must be configured; in the remaining bare
enable-only path (no PWM, no servo, standard mode) the lambda is never
called. -/
def resolvesPower (cfg : Config) (m : CutterMode) : Bool :=
  if m = CutterMode.standard then cfg.spindleLaserUsePwm || cfg.spindleServo
  else cfg.laserPowerSync || cfg.laserFeature

/-! ### Concrete configurations used as evaluation points -/

/-- A binary on/off build: no PWM, no servo, no laser inline features. -/
def cfgBinary : Config :=
  { spindleServo := false, spindleLaserUsePwm := false,
    laserPowerSync := false, laserFeature := false, spindleChangeDir := false,
    minPower := 0, maxPower := 255, startupUnitPower := 0 }

/-- A PWM laser build with the per-block inline strategy. -/
def cfgPwm : Config :=
  { spindleServo := false, spindleLaserUsePwm := true,
    laserPowerSync := false, laserFeature := true, spindleChangeDir := false,
    minPower := 0, maxPower := 255, startupUnitPower := 50 }

/-- A positional-servo spindle build. -/
def cfgServo : Config :=
  { spindleServo := true, spindleLaserUsePwm := false,
    laserPowerSync := false, laserFeature := false, spindleChangeDir := false,
    minPower := 0, maxPower := 180, startupUnitPower := 5 }

/-- A motion-queue block as far as power is concerned: the power value it
carries and whether it is a power-sync marker block
(`BLOCK_FLAG_LASER_PWR`). -/
structure Block where
  power : ℚ
  syncPower : Bool
  deriving DecidableEq, Repr

/-- Producer-side view of the motion queue: the blocks already enqueued and
the per-block power that subsequently produced blocks will carry. -/
structure Planner where
  queue : List Block
  nextPower : ℚ
  deriving DecidableEq, Repr

/-- Modelled from the spec: the effect of one traced event on the
producer-side queue (spec 4.3).  A per-block hand-off (`setNextBlockPower`)
changes only the power carried by subsequently enqueued blocks; a
power-sync hand-off (`enqueueSyncMarker`) appends one zero-motion marker
block carrying the pending value; `synchronize` only waits for the consumer
and mutates nothing on the producer side; hardware writes do not touch the
queue. -/
def bridgeStep (pl : Planner) (e : Event) : Planner :=
  match e with
  | Event.inlineHandoff v => { pl with nextPower := v }
  | Event.syncMarker v =>
      { pl with queue := pl.queue ++ [{ power := v, syncPower := true }] }
  | _ => pl

/-- Modelled from the spec: enqueueing one motion block; the block carries
the current per-block power of the planner (spec 4.3, per-block strategy). -/
def enqueueMove (pl : Planner) : Planner :=
  { pl with
    queue := pl.queue ++ [{ power := pl.nextPower, syncPower := false }] }

/-- The states reachable from the initial state by any sequence of
activate (`M3_M4`) and deactivate (`M5`) commands under a fixed build
configuration. -/
inductive Reachable (cfg : Config) : CutterState → Prop where
  | init : Reachable cfg initState
  | m3m4 (m4 I : Bool) (s : Option ℚ) {c : CutterState} :
      Reachable cfg c → Reachable cfg (M3_M4 cfg m4 I s c).1
  | m5 (I : Bool) {c : CutterState} :
      Reachable cfg c → Reachable cfg (M5 cfg I c).1

/-! ### Helper lemmas -/

lemma get_s_power_mode (cfg : Config) (s : Option ℚ) (c : CutterState) :
    (get_s_power cfg s c).1.cutter_mode = c.cutter_mode := by
  cases s <;> simp only [get_s_power] <;> split_ifs <;> rfl

lemma get_s_power_enabled (cfg : Config) (s : Option ℚ) (c : CutterState) :
    (get_s_power cfg s c).1.enabled = c.enabled := by
  cases s <;> simp only [get_s_power] <;> split_ifs <;> rfl

lemma M3_M4_mode (cfg : Config) (m4 I : Bool) (s : Option ℚ)
    (c : CutterState) :
    (M3_M4 cfg m4 I s c).1.cutter_mode =
      (if I then (if m4 then CutterMode.dynamic else CutterMode.continuous)
       else c.cutter_mode) := by
  cases I <;>
    simp only [M3_M4, set_enabled, set_power, Bool.false_eq_true, if_false,
      if_true] <;>
    split_ifs <;>
    simp_all [get_s_power_mode]

lemma M3_M4_enabled (cfg : Config) (m4 I : Bool) (s : Option ℚ)
    (c : CutterState) :
    (M3_M4 cfg m4 I s c).1.enabled = c.enabled ∨
      (M3_M4 cfg m4 I s c).1.enabled = true := by
  cases I <;>
    simp only [M3_M4, set_enabled, set_power, Bool.false_eq_true, if_false,
      if_true] <;>
    split_ifs <;>
    simp_all [get_s_power_enabled]

lemma M3_M4_head_sync (cfg : Config) (m4 I : Bool) (s : Option ℚ)
    (c : CutterState) (h : c.cutter_mode = CutterMode.standard) :
    (M3_M4 cfg m4 I s c).2.head? = some Event.synchronize := by
  simp only [M3_M4, set_enabled, set_power, h, if_true]
  split_ifs <;> rfl

lemma M3_M4_inline_trace (cfg : Config) (m4 I : Bool) (s : Option ℚ)
    (c : CutterState) (h : c.cutter_mode ≠ CutterMode.standard) :
    (M3_M4 cfg m4 I s c).2 = [] ∨
    (∃ v, (M3_M4 cfg m4 I s c).2 = [Event.syncMarker v]) ∨
    (∃ v, (M3_M4 cfg m4 I s c).2 = [Event.inlineHandoff v]) := by
  have hmode : (if I then
      set_enabled true
        { c with cutter_mode :=
            if m4 then CutterMode.dynamic else CutterMode.continuous }
    else c).cutter_mode = CutterMode.continuous ∨
      (if I then
        set_enabled true
          { c with cutter_mode :=
              if m4 then CutterMode.dynamic else CutterMode.continuous }
      else c).cutter_mode = CutterMode.dynamic := by
    cases I <;> cases m4 <;> simp [set_enabled] <;>
      cases hm : c.cutter_mode <;> simp_all
  simp only [M3_M4, h, if_false, if_pos hmode]
  split_ifs <;> simp

lemma M5_state (cfg : Config) (I : Bool) (c : CutterState) :
    (M5 cfg I c).1.cutter_mode =
      (if I then CutterMode.standard else c.cutter_mode) ∧
    (M5 cfg I c).1.enabled = (if I then false else c.enabled) := by
  cases I <;>
    simp only [M5, apply_power, set_enabled, Bool.false_eq_true, if_false,
      if_true] <;>
    split_ifs <;> simp

lemma M3_M4_enabled_or (cfg : Config) (m4 I : Bool) (s : Option ℚ)
    (c : CutterState) :
    (M3_M4 cfg m4 I s c).1.enabled = true ∨
      ((M3_M4 cfg m4 I s c).1.enabled = c.enabled ∧
       (M3_M4 cfg m4 I s c).1.cutter_mode = c.cutter_mode) := by
  cases I
  · rcases M3_M4_enabled cfg m4 false s c with he | he
    · right
      exact ⟨he, by simpa using M3_M4_mode cfg m4 false s c⟩
    · left
      exact he
  · left
    simp only [M3_M4, set_enabled, set_power, if_true]
    split_ifs <;> simp [get_s_power_enabled]

lemma get_s_power_ret (cfg : Config) (s : Option ℚ) (c : CutterState) :
    (get_s_power cfg s c).2 = (get_s_power cfg s c).1.unitPower := by
  cases s
  · simp only [get_s_power]
    split_ifs <;> rfl
  · rfl

lemma get_s_power_some_unit (cfg : Config) (s : ℚ) (c : CutterState) :
    (get_s_power cfg (some s) c).1.unitPower = power_to_range cfg s := by
  simp only [get_s_power]
  split_ifs <;> rfl

lemma get_s_power_some_menu (cfg : Config) (s : ℚ) (c : CutterState) :
    (get_s_power cfg (some s) c).1.menuPower = power_to_range cfg s := by
  simp only [get_s_power]
  split_ifs <;> rfl

lemma get_s_power_none_unit (cfg : Config) (c : CutterState) :
    (get_s_power cfg none c).1.unitPower =
      (if c.cutter_mode = CutterMode.standard then cfg.startupUnitPower
       else c.unitPower) := by
  simp only [get_s_power]
  split_ifs <;> rfl

lemma get_s_power_none_menu (cfg : Config) (c : CutterState) :
    (get_s_power cfg none c).1.menuPower = c.menuPower := by
  simp only [get_s_power]
  split_ifs <;> rfl

lemma power_to_range_bounds (cfg : Config) (p : ℚ)
    (h : cfg.minPower ≤ cfg.maxPower) :
    cfg.minPower ≤ power_to_range cfg p ∧
      power_to_range cfg p ≤ cfg.maxPower := by
  unfold power_to_range
  split_ifs with h1 h2
  · exact ⟨le_refl _, h⟩
  · exact ⟨h, le_refl _⟩
  · exact ⟨le_of_not_lt h1, le_of_not_lt h2⟩

lemma upower_to_ocr_bounds (cfg : Config) (p : ℚ)
    (h : cfg.minPower ≤ cfg.maxPower) :
    0 ≤ upower_to_ocr cfg p ∧ upower_to_ocr cfg p ≤ 255 := by
  obtain ⟨h1, h2⟩ := power_to_range_bounds cfg p h
  have hq : 0 ≤ 255 * ((power_to_range cfg p - cfg.minPower) /
        (cfg.maxPower - cfg.minPower)) ∧
      255 * ((power_to_range cfg p - cfg.minPower) /
        (cfg.maxPower - cfg.minPower)) ≤ 255 := by
    by_cases hd : cfg.maxPower - cfg.minPower = 0
    · rw [hd, div_zero, mul_zero]
      norm_num
    · have hdpos : 0 < cfg.maxPower - cfg.minPower :=
        lt_of_le_of_ne (sub_nonneg.mpr h) (Ne.symm hd)
      have hn0 : 0 ≤ power_to_range cfg p - cfg.minPower := sub_nonneg.mpr h1
      have hnd : power_to_range cfg p - cfg.minPower ≤
          cfg.maxPower - cfg.minPower := sub_le_sub_right h2 _
      have hdiv1 : (power_to_range cfg p - cfg.minPower) /
          (cfg.maxPower - cfg.minPower) ≤ 1 := (div_le_one hdpos).mpr hnd
      have hdiv0 : 0 ≤ (power_to_range cfg p - cfg.minPower) /
          (cfg.maxPower - cfg.minPower) := div_nonneg hn0 hdpos.le
      constructor
      · positivity
      · nlinarith
  constructor
  · have : (0 : ℤ) ≤ ⌊255 * ((power_to_range cfg p - cfg.minPower) /
        (cfg.maxPower - cfg.minPower))⌋ := Int.le_floor.mpr (by
      push_cast
      exact hq.1)
    unfold upower_to_ocr
    exact_mod_cast this
  · have : ⌊255 * ((power_to_range cfg p - cfg.minPower) /
        (cfg.maxPower - cfg.minPower))⌋ ≤ (255 : ℤ) := by
      have hle : ⌊255 * ((power_to_range cfg p - cfg.minPower) /
          (cfg.maxPower - cfg.minPower))⌋ ≤ ⌊(255 : ℚ)⌋ :=
        Int.floor_le_floor hq.2
      simpa using hle
    unfold upower_to_ocr
    exact_mod_cast this

lemma M3_M4_unit_some (cfg : Config) (m4 I : Bool) (s : ℚ)
    (c : CutterState) :
    (M3_M4 cfg m4 I (some s) c).1.unitPower = c.unitPower ∨
      (M3_M4 cfg m4 I (some s) c).1.unitPower = power_to_range cfg s := by
  cases I <;>
    simp only [M3_M4, set_enabled, set_power, Bool.false_eq_true, if_false,
      if_true] <;>
    split_ifs <;>
    simp [get_s_power_some_unit]

lemma M3_M4_event_values (cfg : Config) (m4 I : Bool) (s : ℚ)
    (c : CutterState) (v : ℚ) :
    (Event.writeOutput v ∈ (M3_M4 cfg m4 I (some s) c).2 ∨
     Event.inlineHandoff v ∈ (M3_M4 cfg m4 I (some s) c).2 ∨
     Event.syncMarker v ∈ (M3_M4 cfg m4 I (some s) c).2) →
    (∃ p, v = upower_to_ocr cfg p) ∨ v = power_to_range cfg s := by
  intro hv
  cases I <;>
    simp only [M3_M4, set_enabled, set_power, Bool.false_eq_true, if_false,
      if_true] at hv <;>
    split_ifs at hv <;>
    simp only [List.mem_append, List.mem_singleton, List.mem_cons,
      List.not_mem_nil, or_false, false_or, reduceCtorEq,
      Event.writeOutput.injEq, Event.inlineHandoff.injEq,
      Event.syncMarker.injEq] at hv <;>
    first
      | exact hv.elim
      | (left; exact ⟨_, hv⟩)
      | (right; rw [hv, get_s_power_ret, get_s_power_some_unit])

lemma M3_M4_dispatch_shape (cfg : Config) (m4 I : Bool) (s : Option ℚ)
    (c : CutterState)
    (h : (M3_M4 cfg m4 I s c).1.cutter_mode = CutterMode.continuous ∨
         (M3_M4 cfg m4 I s c).1.cutter_mode = CutterMode.dynamic) :
    ∃ t0 : List Event, (t0 = [] ∨ t0 = [Event.synchronize]) ∧
      ((cfg.laserPowerSync = true ∧
        (M3_M4 cfg m4 I s c).2 =
          t0 ++ [Event.syncMarker (M3_M4 cfg m4 I s c).1.power]) ∨
       (cfg.laserPowerSync = false ∧ cfg.laserFeature = true ∧
        (M3_M4 cfg m4 I s c).2 =
          t0 ++ [Event.inlineHandoff (M3_M4 cfg m4 I s c).1.power]) ∨
       (cfg.laserPowerSync = false ∧ cfg.laserFeature = false ∧
        (M3_M4 cfg m4 I s c).2 = t0)) := by
  have hmode := M3_M4_mode cfg m4 I s c
  have hI : I = true ∨ (c.cutter_mode = CutterMode.continuous ∨
      c.cutter_mode = CutterMode.dynamic) := by
    cases I
    · right
      rcases h with h | h <;> rw [hmode] at h <;> simp at h <;> simp [h]
    · left; rfl
  refine ⟨if c.cutter_mode = CutterMode.standard then [Event.synchronize]
    else [], by split_ifs <;> simp, ?_⟩
  have hinline : ((if I then
      set_enabled true
        { c with cutter_mode :=
            if m4 then CutterMode.dynamic else CutterMode.continuous }
    else c).cutter_mode = CutterMode.continuous ∨
      (if I then
        set_enabled true
          { c with cutter_mode :=
              if m4 then CutterMode.dynamic else CutterMode.continuous }
      else c).cutter_mode = CutterMode.dynamic) := by
    rcases hI with rfl | hc
    · cases m4 <;> simp [set_enabled]
    · cases I
      · simpa [set_enabled] using hc
      · cases m4 <;> simp [set_enabled]
  cases hsync : cfg.laserPowerSync
  · cases hfeat : cfg.laserFeature
    · right; right
      refine ⟨rfl, rfl, ?_⟩
      simp only [M3_M4, if_pos hinline, hsync, hfeat, Bool.false_eq_true,
        if_false]
    · right; left
      refine ⟨rfl, rfl, ?_⟩
      simp only [M3_M4, if_pos hinline, hsync, hfeat, Bool.false_eq_true,
        if_false, if_true]
  · left
    refine ⟨rfl, ?_⟩
    simp only [M3_M4, if_pos hinline, hsync, if_true]

/-! ### Claims -/

/-- C1: deactivate (`M5`) first blocks on queue drain, clears `enabled` and
resets the mode to `Standard` exactly when `clearInline` is set (the reset
adding no hardware effect of its own to the trace), and then unconditionally
forces the power to 0 through the mode-dependent dispatch path: the trace is
exactly the drain followed by the one dispatch event of the now-active
mode. -/
theorem M5_drain_reset_force_zero (cfg : Config) (seenI : Bool)
    (c : CutterState) :
    (M5 cfg seenI c).1.enabled = (if seenI then false else c.enabled) ∧
    (M5 cfg seenI c).1.cutter_mode =
      (if seenI then CutterMode.standard else c.cutter_mode) ∧
    (M5 cfg seenI c).1.power = 0 ∧
    (M5 cfg seenI c).2 = Event.synchronize ::
      (if (M5 cfg seenI c).1.cutter_mode = CutterMode.continuous ∨
          (M5 cfg seenI c).1.cutter_mode = CutterMode.dynamic then
        [if cfg.laserPowerSync then Event.syncMarker 0
         else Event.inlineHandoff 0]
       else [Event.writeOutput 0]) := by
  cases seenI <;>
    simp only [M5, apply_power, set_enabled, Bool.false_eq_true, if_false,
      if_true] <;>
    split_ifs <;> simp_all

/-- C2: in activate (`M3_M4`) the blocking drain appears in the trace
exactly when the mode at entry is `Standard`, and an immediate hardware
write occurs only after the drain: whenever a `writeOutput` event is in the
trace, the trace begins with `synchronize`, so the write is emitted
strictly after `synchronize` has returned. -/
theorem M3_M4_sync_iff_standard_and_before_write (cfg : Config)
    (m4 I : Bool) (s : Option ℚ) (c : CutterState) :
    (Event.synchronize ∈ (M3_M4 cfg m4 I s c).2 ↔
      c.cutter_mode = CutterMode.standard) ∧
    (∀ v, Event.writeOutput v ∈ (M3_M4 cfg m4 I s c).2 →
      (M3_M4 cfg m4 I s c).2.head? = some Event.synchronize) := by
  by_cases h : c.cutter_mode = CutterMode.standard
  · constructor
    · have := M3_M4_head_sync cfg m4 I s c h
      constructor
      · intro _; exact h
      · intro _
        rcases hl : (M3_M4 cfg m4 I s c).2 with _ | ⟨e, tl⟩
        · rw [hl] at this; exact absurd this (by simp)
        · rw [hl] at this
          simp only [List.head?] at this
          simp [hl, Option.some_inj.mp this]
    · intro v _
      exact M3_M4_head_sync cfg m4 I s c h
  · rcases M3_M4_inline_trace cfg m4 I s c h with h0 | ⟨v, hv⟩ | ⟨v, hv⟩ <;>
      constructor <;> simp_all

/-- Witness for C2: `M3 S90` on the servo build writes output 90, and the
theorem yields that the trace then starts with the queue drain. -/
theorem M3_M4_sync_before_write_witness :
    (M3_M4 cfgServo false false (some 90) initState).2.head? =
      some Event.synchronize :=
  (M3_M4_sync_iff_standard_and_before_write cfgServo false false (some 90)
    initState).2 90
    (by simp +decide [M3_M4, get_s_power, set_power, set_enabled, cfgServo,
      initState, power_to_range])

/-- C3: activate with `requestInline` set moves the mode to
`ContinuousInline` for the forward command (M3) and `DynamicInline` for the
reverse command (M4) and enables the tool, from every starting state;
deactivate with `clearInline` returns the mode to `Standard` from every
starting state, the inline variants included. -/
theorem activate_deactivate_mode_transitions (cfg : Config) (m4 : Bool)
    (s : Option ℚ) (c c' : CutterState) :
    ((M3_M4 cfg m4 true s c).1.cutter_mode =
      (if m4 then CutterMode.dynamic else CutterMode.continuous)) ∧
    (M3_M4 cfg m4 true s c).1.enabled = true ∧
    (M5 cfg true c').1.cutter_mode = CutterMode.standard := by
  refine ⟨by simpa using M3_M4_mode cfg m4 true s c, ?_, ?_⟩
  · cases m4 <;>
      simp only [M3_M4, set_enabled, set_power, if_true] <;>
      split_ifs <;> simp [get_s_power_enabled]
  · simp only [M5, apply_power, set_enabled, if_true]
    split_ifs <;> rfl

/-- C4: in every state reachable from the initial state
(`Standard`, disabled) by activate/deactivate calls, a non-`Standard` mode
implies the tool is enabled. -/
theorem reachable_inline_implies_enabled (cfg : Config) (c : CutterState)
    (h : Reachable cfg c) (hm : c.cutter_mode ≠ CutterMode.standard) :
    c.enabled = true := by
  induction h with
  | init => exact absurd rfl hm
  | m3m4 m4 I s hr ih =>
    rcases M3_M4_enabled_or cfg m4 I s _ with he | ⟨he, hmode⟩
    · exact he
    · rw [he]
      exact ih (by rw [hmode] at hm; exact hm)
  | m5 I hr ih =>
    rcases M5_state cfg I _ with ⟨hmode, he⟩
    cases I
    · rw [if_neg (by simp)] at hmode he
      rw [he]
      exact ih (by rw [hmode] at hm; exact hm)
    · rw [if_pos rfl] at hmode
      exact absurd hmode hm

/-- Witness for C4 at a concrete reachable state: after `M3 I` from the
initial state the mode is `ContinuousInline`, and the invariant yields
`enabled = true` there. -/
theorem reachable_inline_implies_enabled_witness :
    (M3_M4 cfgBinary false true none initState).1.enabled = true :=
  reachable_inline_implies_enabled cfgBinary _
    (Reachable.m3m4 false true none Reachable.init) (by decide)

/-- C5 counterexample: in the binary on/off build, `M3 S5` in standard mode
from the initial state does not store the clamped requested power into
`unitPower` — activate never evaluates `get_s_power` on that path, so the
claimed resolution rule fails at the activate scope. -/
theorem activate_power_resolution_cex :
    ¬ ((M3_M4 cfgBinary false false (some 5) initState).1.unitPower =
        power_to_range cfgBinary 5) := by
  decide

set_option maxHeartbeats 1600000 in
/-- C5 (amended): in every activate call that takes a power-resolving
dispatch path (`resolvesPower`: PWM or servo in standard mode, or an inline
mode with an inline strategy configured) the target unit power is resolved
as claimed — a supplied requested power is clamped into `unitPower` and
mirrored into `menuPower`; with no supplied value, standard mode falls back
to the configured startup power constant and inline mode leaves `unitPower`
unchanged.  In every other activate call (the bare enable-only binary
standard path, or an inline mode with no inline strategy) no power
resolution happens at all: `unitPower` and `menuPower` are left
unchanged. -/
theorem activate_power_resolution (cfg : Config) (m4 I : Bool)
    (s : Option ℚ) (c : CutterState) :
    (resolvesPower cfg (M3_M4 cfg m4 I s c).1.cutter_mode = true →
      ((∀ v, s = some v →
        (M3_M4 cfg m4 I s c).1.unitPower = power_to_range cfg v ∧
        (M3_M4 cfg m4 I s c).1.menuPower = power_to_range cfg v) ∧
       (s = none →
        (M3_M4 cfg m4 I s c).1.unitPower =
          (if (M3_M4 cfg m4 I s c).1.cutter_mode = CutterMode.standard
           then cfg.startupUnitPower else c.unitPower) ∧
        (M3_M4 cfg m4 I s c).1.menuPower = c.menuPower))) ∧
    (resolvesPower cfg (M3_M4 cfg m4 I s c).1.cutter_mode = false →
      (M3_M4 cfg m4 I s c).1.unitPower = c.unitPower ∧
      (M3_M4 cfg m4 I s c).1.menuPower = c.menuPower) := by
  obtain ⟨cm, ce, cu, cp, cmp⟩ := c
  cases s <;> cases I <;> cases cm <;>
    simp only [M3_M4, set_enabled, set_power, Bool.false_eq_true, if_false,
      if_true] <;>
    split_ifs <;>
    simp_all [resolvesPower, get_s_power_mode, get_s_power_some_unit,
      get_s_power_some_menu, get_s_power_none_unit, get_s_power_none_menu]

/-- Witness for the amended C5 theorem: `M3 S128` on the PWM build stores
the clamped power and mirrors it into the menu value. -/
theorem activate_power_resolution_witness :
    (M3_M4 cfgPwm false false (some 128) initState).1.unitPower =
        power_to_range cfgPwm 128 ∧
    (M3_M4 cfgPwm false false (some 128) initState).1.menuPower =
        power_to_range cfgPwm 128 :=
  ((activate_power_resolution cfgPwm false false (some 128) initState).1
    (by decide)).1 128 rfl

/-- C6 counterexample: under the binary on/off configuration, activate in
standard mode with power 1 (`M3 S1`) from the initial state leaves the
hardware value at 0, not 255 — the claimed scenario
`activate(power=1) → hardwareValue=255` is false on the code. -/
theorem binary_activate_power_one_cex :
    (M3_M4 cfgBinary false false (some 1) initState).1.power ≠ 255 := by
  decide

/-- C6 (amended): under the binary on/off configuration the conversion rule
in `get_s_power` maps a clamped power greater than 0 to 255 and otherwise
to 0; but activate in standard mode under this configuration never invokes
that conversion: it ignores the requested power entirely, leaving the whole
state unchanged except for setting the enabled flag. -/
theorem binary_conversion_rule_and_standard_activate (cfg : Config) (s : ℚ)
    (c : CutterState) (hservo : cfg.spindleServo = false)
    (hpwm : cfg.spindleLaserUsePwm = false)
    (hc : c.cutter_mode = CutterMode.standard) :
    ((get_s_power cfg (some s) c).1.power =
      (if power_to_range cfg s > 0 then 255 else 0)) ∧
    (M3_M4 cfg false false (some s) c).1 = set_enabled true c := by
  constructor
  · simp only [get_s_power, hservo, hpwm, hc, Bool.false_eq_true, if_false,
      if_true]
  · simp only [M3_M4, set_enabled, Bool.false_eq_true, if_false, hc, hservo,
      hpwm]
    split_ifs <;> simp_all

/-- Witness for the amended C6 theorem: in the binary configuration, `M3 S1`
in standard mode only enables the tool, and the conversion rule itself sends
the clamped power 1 to 255. -/
theorem binary_conversion_rule_witness :
    (get_s_power cfgBinary (some 1) initState).1.power =
      (if power_to_range cfgBinary 1 > 0 then 255 else 0) ∧
    (M3_M4 cfgBinary false false (some 1) initState).1 =
      set_enabled true initState :=
  binary_conversion_rule_and_standard_activate cfgBinary 1 initState
    (by decide) (by decide) (by decide)

/-- C7: in a servo configuration (servo enabled, PWM disabled), activate in
standard mode dispatches the resolved unit power directly as the hardware
value — the stored hardware power equals the unit power and the written
output value is the unit power itself, with no OCR conversion applied. -/
theorem servo_activate_dispatches_unit_value (cfg : Config) (m4 : Bool)
    (s : Option ℚ) (c : CutterState) (hs : cfg.spindleServo = true)
    (hpwm : cfg.spindleLaserUsePwm = false)
    (hc : c.cutter_mode = CutterMode.standard) :
    (M3_M4 cfg m4 false s c).1.power = (M3_M4 cfg m4 false s c).1.unitPower ∧
    Event.writeOutput ((M3_M4 cfg m4 false s c).1.unitPower) ∈
      (M3_M4 cfg m4 false s c).2 := by
  have hret := get_s_power_ret cfg s c
  simp only [M3_M4, set_power, Bool.false_eq_true, if_false, hc, hs, hpwm,
    if_true]
  split_ifs <;> simp_all

/-- Witness for C7: `M3 S90` on the servo build writes unit power 90
directly. -/
theorem servo_activate_dispatches_unit_value_witness :
    (M3_M4 cfgServo false false (some 90) initState).1.power =
      (M3_M4 cfgServo false false (some 90) initState).1.unitPower ∧
    Event.writeOutput
        ((M3_M4 cfgServo false false (some 90) initState).1.unitPower) ∈
      (M3_M4 cfgServo false false (some 90) initState).2 :=
  servo_activate_dispatches_unit_value cfgServo false (some 90) initState
    (by decide) (by decide) (by decide)

/-- C8: for every requested power value, in range or not, activate stores
only clamped unit power (any change to `unitPower` lands inside the
configured range bounds) and every hardware value it writes or queues is in
range: OCR values lie in `[0, 255]` and directly-dispatched servo unit
values lie within the configured power range. -/
theorem activate_clamps_and_bounds (cfg : Config) (m4 I : Bool) (s : ℚ)
    (c : CutterState) (hmm : cfg.minPower ≤ cfg.maxPower)
    (h0 : 0 ≤ cfg.minPower) :
    ((M3_M4 cfg m4 I (some s) c).1.unitPower = c.unitPower ∨
      (cfg.minPower ≤ (M3_M4 cfg m4 I (some s) c).1.unitPower ∧
       (M3_M4 cfg m4 I (some s) c).1.unitPower ≤ cfg.maxPower)) ∧
    (∀ v, (Event.writeOutput v ∈ (M3_M4 cfg m4 I (some s) c).2 ∨
        Event.inlineHandoff v ∈ (M3_M4 cfg m4 I (some s) c).2 ∨
        Event.syncMarker v ∈ (M3_M4 cfg m4 I (some s) c).2) →
      0 ≤ v ∧ (v ≤ 255 ∨ v ≤ cfg.maxPower)) := by
  constructor
  · rcases M3_M4_unit_some cfg m4 I s c with h | h
    · left; exact h
    · right
      rw [h]
      exact power_to_range_bounds cfg s hmm
  · intro v hv
    rcases M3_M4_event_values cfg m4 I s c v hv with ⟨p, rfl⟩ | rfl
    · obtain ⟨hl, hr⟩ := upower_to_ocr_bounds cfg p hmm
      exact ⟨hl, Or.inl hr⟩
    · obtain ⟨hl, hr⟩ := power_to_range_bounds cfg s hmm
      exact ⟨le_trans h0 hl, Or.inr hr⟩

/-- Witness for C8: `M3 S400` on the PWM build with valid range
`[0, 255]`. -/
theorem activate_clamps_and_bounds_witness :
    ((M3_M4 cfgPwm false false (some 400) initState).1.unitPower =
        initState.unitPower ∨
      (cfgPwm.minPower ≤
          (M3_M4 cfgPwm false false (some 400) initState).1.unitPower ∧
        (M3_M4 cfgPwm false false (some 400) initState).1.unitPower ≤
          cfgPwm.maxPower)) ∧
    (∀ v, (Event.writeOutput v ∈
          (M3_M4 cfgPwm false false (some 400) initState).2 ∨
        Event.inlineHandoff v ∈
          (M3_M4 cfgPwm false false (some 400) initState).2 ∨
        Event.syncMarker v ∈
          (M3_M4 cfgPwm false false (some 400) initState).2) →
      0 ≤ v ∧ (v ≤ 255 ∨ v ≤ cfgPwm.maxPower)) :=
  activate_clamps_and_bounds cfgPwm false false 400 initState (by decide)
    (by decide)

/-- C9: whenever the dispatch in activate happens in an inline mode, no direct
hardware write occurs; the value is handed to the queue bridge, where it
never changes blocks already in the queue (they stay in place, unchanged):
under the power-sync strategy exactly one marker block carrying the value
is appended after all existing blocks, and under the per-block strategy the
queue itself is untouched and the value is carried by the next block
enqueued after the call. -/
theorem inline_dispatch_queue_contract (cfg : Config) (m4 I : Bool)
    (s : Option ℚ) (c : CutterState)
    (h : (M3_M4 cfg m4 I s c).1.cutter_mode = CutterMode.continuous ∨
         (M3_M4 cfg m4 I s c).1.cutter_mode = CutterMode.dynamic) :
    (∀ v, Event.writeOutput v ∉ (M3_M4 cfg m4 I s c).2) ∧
    (∀ pl : Planner, ∃ t,
      ((M3_M4 cfg m4 I s c).2.foldl bridgeStep pl).queue = pl.queue ++ t) ∧
    (cfg.laserPowerSync = true → ∀ pl : Planner,
      ((M3_M4 cfg m4 I s c).2.foldl bridgeStep pl).queue = pl.queue ++
        [{ power := (M3_M4 cfg m4 I s c).1.power, syncPower := true }]) ∧
    (cfg.laserPowerSync = false → cfg.laserFeature = true →
      ∀ pl : Planner,
      ((M3_M4 cfg m4 I s c).2.foldl bridgeStep pl).queue = pl.queue ∧
      (enqueueMove ((M3_M4 cfg m4 I s c).2.foldl bridgeStep pl)).queue =
        pl.queue ++
          [{ power := (M3_M4 cfg m4 I s c).1.power, syncPower := false }]) := by
  obtain ⟨t0, ht0, hbr⟩ := M3_M4_dispatch_shape cfg m4 I s c h
  have ht0fold : ∀ pl : Planner, t0.foldl bridgeStep pl = pl := by
    intro pl
    rcases ht0 with rfl | rfl <;> rfl
  rcases hbr with ⟨hsync, htr⟩ | ⟨hsync, hfeat, htr⟩ | ⟨hsync, hfeat, htr⟩
  · refine ⟨?_, ?_, ?_, ?_⟩
    · intro v hv
      rw [htr] at hv
      rcases ht0 with rfl | rfl <;> simp at hv
    · intro pl
      rw [htr, List.foldl_append, ht0fold]
      exact ⟨_, rfl⟩
    · intro _ pl
      rw [htr, List.foldl_append, ht0fold]
      rfl
    · intro hs
      rw [hs] at hsync
      exact absurd hsync (by simp)
  · refine ⟨?_, ?_, ?_, ?_⟩
    · intro v hv
      rw [htr] at hv
      rcases ht0 with rfl | rfl <;> simp at hv
    · intro pl
      rw [htr, List.foldl_append, ht0fold]
      exact ⟨[], by simp [bridgeStep]⟩
    · intro hs
      rw [hs] at hsync
      exact absurd hsync (by simp)
    · intro _ _ pl
      rw [htr, List.foldl_append, ht0fold]
      exact ⟨rfl, rfl⟩
  · refine ⟨?_, ?_, ?_, ?_⟩
    · intro v hv
      rw [htr] at hv
      rcases ht0 with rfl | rfl <;> simp at hv
    · intro pl
      rw [htr, ht0fold]
      exact ⟨[], by simp⟩
    · intro hs
      rw [hs] at hsync
      exact absurd hsync (by simp)
    · intro _ hf
      rw [hf] at hfeat
      exact absurd hfeat (by simp)

/-- Witness for C9: `M3 I S100` on the per-block laser build. -/
theorem inline_dispatch_queue_contract_witness :
    (∀ v, Event.writeOutput v ∉
      (M3_M4 cfgPwm false true (some 100) initState).2) ∧
    (∀ pl : Planner, ∃ t,
      ((M3_M4 cfgPwm false true (some 100) initState).2.foldl bridgeStep
        pl).queue = pl.queue ++ t) ∧
    (cfgPwm.laserPowerSync = true → ∀ pl : Planner,
      ((M3_M4 cfgPwm false true (some 100) initState).2.foldl bridgeStep
        pl).queue = pl.queue ++
        [{ power := (M3_M4 cfgPwm false true (some 100) initState).1.power,
           syncPower := true }]) ∧
    (cfgPwm.laserPowerSync = false → cfgPwm.laserFeature = true →
      ∀ pl : Planner,
      ((M3_M4 cfgPwm false true (some 100) initState).2.foldl bridgeStep
        pl).queue = pl.queue ∧
      (enqueueMove ((M3_M4 cfgPwm false true (some 100) initState).2.foldl
        bridgeStep pl)).queue = pl.queue ++
        [{ power := (M3_M4 cfgPwm false true (some 100) initState).1.power,
           syncPower := false }]) :=
  inline_dispatch_queue_contract cfgPwm false true (some 100) initState
    (by decide)

/-- C10: deactivate without `clearInline` (`M5` without `I`) changes none of
mode, enabled, `unitPower`, `menuPower` — in particular the menu mirror is
not reset — and its only state effect is forcing the output power to 0. -/
theorem M5_noClear_frame (cfg : Config) (c : CutterState) :
    (M5 cfg false c).1.cutter_mode = c.cutter_mode ∧
    (M5 cfg false c).1.enabled = c.enabled ∧
    (M5 cfg false c).1.unitPower = c.unitPower ∧
    (M5 cfg false c).1.menuPower = c.menuPower ∧
    (M5 cfg false c).1.power = 0 := by
  simp only [M5, apply_power, Bool.false_eq_true, if_false]
  split_ifs <;> simp

